import Mathlib

/-!
Verification development for the wall-image service
(grid planner, download worker pool, generation closure, TTL file cache).

Conventions of the embedding:
* Go `int` values are modelled as `Nat`; every integer in the verified paths is
  non-negative in the source (canvas sizes, counts, sizes, times).
  Go integer division on non-negative operands agrees with `Nat` division.
* `float64` utilization values `area / (canvasWidth*canvasHeight)` are tracked
  by their numerator `area : Nat`; the denominator is one fixed positive
  constant per call, so every comparison performed by the code
  (`utilization > bestFit`, with `bestFit` starting at `0.0`) has the same
  outcome on the numerators.
* Decoded images are opaque tokens (`Nat`); byte strings are `List Nat`;
  Go strings inspected character-wise are `List Char`.
-/

/-- `GridDimensions` from imageprocessor.go. -/
structure GridDimensions where
  Cols : Nat
  Rows : Nat
  PicWidth : Nat
  PicHeight : Nat
deriving DecidableEq, Repr

/-- Body of the `for c := 1; c <= pictureCount; c++` loop of
`calculateOptimalGrid` (imageprocessor.go lines 21-63), acting on the
accumulator `(bestFit-numerator, best dimensions)`.
`r = int(math.Ceil(float64(pictureCount)/float64(c)))` is `(pc + c - 1) / c`
for `c ≥ 1`. -/
def gridStep (canvasWidth canvasHeight pictureCount : Nat)
    (acc : Nat × GridDimensions) (c : Nat) : Nat × GridDimensions :=
  let r := (pictureCount + c - 1) / c
  let tempWidth := canvasWidth / c
  let tempHeight := canvasHeight / r
  if tempHeight > 2 * tempWidth then
    let actualHeight := 2 * tempWidth
    let actualWidth := tempWidth
    if actualHeight * r ≤ canvasHeight then
      let utilization := actualWidth * c * actualHeight * r
      if utilization > acc.1 then (utilization, ⟨c, r, actualWidth, actualHeight⟩)
      else acc
    else acc
  else
    let actualHeight := tempHeight
    let actualWidth := actualHeight / 2
    if actualWidth * c ≤ canvasWidth then
      let utilization := actualWidth * c * actualHeight * r
      if utilization > acc.1 then (utilization, ⟨c, r, actualWidth, actualHeight⟩)
      else acc
    else acc

/-- The loop range `c = 1, …, n` of `calculateOptimalGrid`. -/
def colList (n : Nat) : List Nat := (List.range n).map (· + 1)

/-- Accumulator state of `calculateOptimalGrid` after the loop has processed
the candidate column counts `1, …, n`. -/
def gridAcc (canvasWidth canvasHeight pictureCount n : Nat) : Nat × GridDimensions :=
  (colList n).foldl (gridStep canvasWidth canvasHeight pictureCount) (0, ⟨0, 0, 0, 0⟩)

/-- `calculateOptimalGrid` (imageprocessor.go lines 16-74): run the candidate
loop over `c = 1, …, pictureCount` starting from `bestFit = 0` and the
zero-valued best dimensions, and return the best dimensions found. -/
def calculateOptimalGrid (canvasWidth canvasHeight pictureCount : Nat) : GridDimensions :=
  (gridAcc canvasWidth canvasHeight pictureCount pictureCount).2

/-- Row count for candidate column count `c`. -/
def candRows (pictureCount c : Nat) : Nat := (pictureCount + c - 1) / c

/-- `tempWidth` for candidate `c`. -/
def candTempW (canvasWidth c : Nat) : Nat := canvasWidth / c

/-- `tempHeight` for candidate `c`. -/
def candTempH (canvasHeight pictureCount c : Nat) : Nat :=
  canvasHeight / candRows pictureCount c

/-- The dimensions the loop body would record for candidate `c`
(before its fit check). -/
def candDims (cw ch pc c : Nat) : GridDimensions :=
  if candTempH ch pc c > 2 * candTempW cw c then
    ⟨c, candRows pc c, candTempW cw c, 2 * candTempW cw c⟩
  else
    ⟨c, candRows pc c, candTempH ch pc c / 2, candTempH ch pc c⟩

/-- Whether candidate `c` passes the fit check of its branch. -/
def candOK (cw ch pc c : Nat) : Bool :=
  if candTempH ch pc c > 2 * candTempW cw c then
    decide (2 * candTempW cw c * candRows pc c ≤ ch)
  else
    decide (candTempH ch pc c / 2 * c ≤ cw)

/-- Numerator of the utilization of a grid spec:
`PicWidth*Cols*PicHeight*Rows` (the code's `actualWidth*c*actualHeight*r`). -/
def specArea (g : GridDimensions) : Nat := g.PicWidth * g.Cols * g.PicHeight * g.Rows

/-- Utilization numerator of candidate `c`. -/
def candArea (cw ch pc c : Nat) : Nat := specArea (candDims cw ch pc c)

/-- Utilization of a grid spec on a `canvasWidth × canvasHeight` canvas, as the
exact rational the float computation approximates. -/
def utilization (cw ch : Nat) (g : GridDimensions) : ℚ :=
  (specArea g : ℚ) / ((cw : ℚ) * (ch : ℚ))

/-- The loop body either records candidate `c` (when it passes its fit check
and strictly beats the running best) or leaves the accumulator unchanged. -/
theorem gridStep_eq (cw ch pc : Nat) (acc : Nat × GridDimensions) (c : Nat) :
    gridStep cw ch pc acc c =
      if candOK cw ch pc c = true ∧ acc.1 < candArea cw ch pc c
      then (candArea cw ch pc c, candDims cw ch pc c)
      else acc := by
  simp only [gridStep, candOK, candDims, candArea, specArea, candTempW, candTempH, candRows]
  by_cases h1 : ch / ((pc + c - 1) / c) > 2 * (cw / c)
  · by_cases h2 : 2 * (cw / c) * ((pc + c - 1) / c) ≤ ch
    · by_cases h3 : acc.1 < cw / c * c * (2 * (cw / c)) * ((pc + c - 1) / c) <;>
        simp [h1, h2, h3]
    · simp [h1, h2]
  · by_cases h2 : ch / ((pc + c - 1) / c) / 2 * c ≤ cw
    · by_cases h3 :
        acc.1 < ch / ((pc + c - 1) / c) / 2 * c * (ch / ((pc + c - 1) / c)) * ((pc + c - 1) / c) <;>
        simp [h1, h2, h3]
    · simp [h1, h2]

theorem colList_succ (n : Nat) : colList (n + 1) = colList n ++ [n + 1] := by
  simp [colList, List.range_succ]

theorem gridAcc_succ (cw ch pc n : Nat) :
    gridAcc cw ch pc (n + 1) = gridStep cw ch pc (gridAcc cw ch pc n) (n + 1) := by
  simp [gridAcc, colList_succ, List.foldl_append]

theorem gridAcc_zero (cw ch pc : Nat) : gridAcc cw ch pc 0 = (0, ⟨0, 0, 0, 0⟩) := rfl

/-- Loop invariant of `calculateOptimalGrid` after processing candidates
`1, …, n`: the tracked `bestFit` numerator is the area of the tracked
dimensions; the accumulator is either still the zero-valued initial state or
records the earliest accepted candidate of maximal positive area seen so far;
and no accepted candidate in range has a larger area. -/
theorem gridAcc_inv (cw ch pc : Nat) (n : Nat) :
    (gridAcc cw ch pc n).1 = specArea (gridAcc cw ch pc n).2 ∧
    (((gridAcc cw ch pc n).1 = 0 ∧ (gridAcc cw ch pc n).2 = ⟨0, 0, 0, 0⟩) ∨
      ∃ c0, 1 ≤ c0 ∧ c0 ≤ n ∧ candOK cw ch pc c0 = true ∧
        (gridAcc cw ch pc n).2 = candDims cw ch pc c0 ∧
        (gridAcc cw ch pc n).1 = candArea cw ch pc c0 ∧
        0 < (gridAcc cw ch pc n).1 ∧
        ∀ c, 1 ≤ c → c ≤ n → candOK cw ch pc c = true →
          candArea cw ch pc c = (gridAcc cw ch pc n).1 → c0 ≤ c) ∧
    (∀ c, 1 ≤ c → c ≤ n → candOK cw ch pc c = true →
      candArea cw ch pc c ≤ (gridAcc cw ch pc n).1) := by
  induction n with
  | zero =>
    refine ⟨rfl, Or.inl ⟨rfl, rfl⟩, ?_⟩
    intro c hc1 hc0 _
    omega
  | succ n ih =>
    obtain ⟨ihA, ihB, ihC⟩ := ih
    rw [gridAcc_succ, gridStep_eq]
    by_cases hcond : candOK cw ch pc (n + 1) = true ∧
        (gridAcc cw ch pc n).1 < candArea cw ch pc (n + 1)
    · rw [if_pos hcond]
      obtain ⟨hOK, hlt⟩ := hcond
      dsimp only
      refine ⟨rfl, Or.inr ⟨n + 1, by omega, Nat.le_refl _, hOK, rfl, rfl, by omega, ?_⟩, ?_⟩
      · intro c hc1 hcn hok harea
        by_cases hle : c ≤ n
        · have := ihC c hc1 hle hok
          omega
        · omega
      · intro c hc1 hcn hok
        by_cases hle : c ≤ n
        · have := ihC c hc1 hle hok
          omega
        · have hc : c = n + 1 := by omega
          subst hc
          omega
    · rw [if_neg hcond]
      have hstay : ∀ hok : candOK cw ch pc (n + 1) = true,
          candArea cw ch pc (n + 1) ≤ (gridAcc cw ch pc n).1 := by
        intro hok
        by_contra h
        exact hcond ⟨hok, by omega⟩
      refine ⟨ihA, ?_, ?_⟩
      · rcases ihB with h | ⟨c0, hc01, hc0n, hok0, hdims, harea, hpos, hmin⟩
        · exact Or.inl h
        · refine Or.inr ⟨c0, hc01, by omega, hok0, hdims, harea, hpos, ?_⟩
          intro c hc1 hcn hok harea'
          by_cases hle : c ≤ n
          · exact hmin c hc1 hle hok harea'
          · omega
      · intro c hc1 hcn hok
        by_cases hle : c ≤ n
        · exact ihC c hc1 hle hok
        · have hc : c = n + 1 := by omega
          subst hc
          exact hstay hok

/-- Per-candidate bounds: an accepted candidate's dimensions respect both
canvas bounds, and its width is the integer half of its height. -/
theorem candDims_bounds (cw ch pc c : Nat) (hOK : candOK cw ch pc c = true) :
    (candDims cw ch pc c).Cols * (candDims cw ch pc c).PicWidth ≤ cw ∧
    (candDims cw ch pc c).Rows * (candDims cw ch pc c).PicHeight ≤ ch ∧
    (candDims cw ch pc c).PicWidth = (candDims cw ch pc c).PicHeight / 2 := by
  unfold candOK at hOK
  unfold candDims
  by_cases h1 : candTempH ch pc c > 2 * candTempW cw c
  · rw [if_pos h1] at hOK ⊢
    have h2 : 2 * candTempW cw c * candRows pc c ≤ ch := of_decide_eq_true hOK
    refine ⟨?_, ?_, ?_⟩
    · show c * candTempW cw c ≤ cw
      rw [Nat.mul_comm]
      exact Nat.div_mul_le_self cw c
    · show candRows pc c * (2 * candTempW cw c) ≤ ch
      rw [Nat.mul_comm]
      exact h2
    · show candTempW cw c = 2 * candTempW cw c / 2
      omega
  · rw [if_neg h1] at hOK ⊢
    have h2 : candTempH ch pc c / 2 * c ≤ cw := of_decide_eq_true hOK
    refine ⟨?_, ?_, rfl⟩
    · show c * (candTempH ch pc c / 2) ≤ cw
      rw [Nat.mul_comm]
      exact h2
    · show candRows pc c * candTempH ch pc c ≤ ch
      rw [Nat.mul_comm]
      exact Nat.div_mul_le_self ch (candRows pc c)

/-- Utilizations over the same canvas compare the same way as their area
numerators. -/
theorem utilization_le_of_area_le (cw ch : Nat) (hw : 1 ≤ cw) (hh : 1 ≤ ch)
    {g1 g2 : GridDimensions} (h : specArea g1 ≤ specArea g2) :
    utilization cw ch g1 ≤ utilization cw ch g2 := by
  unfold utilization
  have hD : (0 : ℚ) < (cw : ℚ) * (ch : ℚ) := by
    have hw' : (0 : ℚ) < (cw : ℚ) := by exact_mod_cast hw
    have hh' : (0 : ℚ) < (ch : ℚ) := by exact_mod_cast hh
    exact mul_pos hw' hh'
  rw [div_le_div_iff₀ hD hD]
  have h' : (specArea g1 : ℚ) ≤ (specArea g2 : ℚ) := by exact_mod_cast h
  exact mul_le_mul_of_nonneg_right h' (le_of_lt hD)

/-- C9: `calculateOptimalGrid` returns either the all-zero spec or a spec in
which all four fields are strictly positive, because a candidate is recorded
only when its utilization strictly exceeds the running best, which starts at
zero. -/
theorem grid_zero_or_all_positive (canvasWidth canvasHeight pictureCount : Nat) :
    calculateOptimalGrid canvasWidth canvasHeight pictureCount = ⟨0, 0, 0, 0⟩ ∨
    (0 < (calculateOptimalGrid canvasWidth canvasHeight pictureCount).Cols ∧
     0 < (calculateOptimalGrid canvasWidth canvasHeight pictureCount).Rows ∧
     0 < (calculateOptimalGrid canvasWidth canvasHeight pictureCount).PicWidth ∧
     0 < (calculateOptimalGrid canvasWidth canvasHeight pictureCount).PicHeight) := by
  obtain ⟨h1, h2, -⟩ := gridAcc_inv canvasWidth canvasHeight pictureCount pictureCount
  rcases h2 with ⟨-, hz⟩ | ⟨c0, -, -, -, -, -, hpos, -⟩
  · exact Or.inl hz
  · right
    rw [h1] at hpos
    unfold calculateOptimalGrid
    set g := (gridAcc canvasWidth canvasHeight pictureCount pictureCount).2 with hg
    unfold specArea at hpos
    refine ⟨?_, ?_, ?_, ?_⟩
    · by_contra h
      have hc : g.Cols = 0 := by omega
      rw [hc] at hpos
      simp at hpos
    · by_contra h
      have hc : g.Rows = 0 := by omega
      rw [hc] at hpos
      simp at hpos
    · by_contra h
      have hc : g.PicWidth = 0 := by omega
      rw [hc] at hpos
      simp at hpos
    · by_contra h
      have hc : g.PicHeight = 0 := by omega
      rw [hc] at hpos
      simp at hpos

/-- C1 counterexample: on a 10×5 canvas with one picture the returned spec is
`⟨1, 1, 2, 5⟩` — not the zero spec, yet `PicHeight = 5 ≠ 4 = 2 * PicWidth`,
because the height-limited branch computes `actualWidth = actualHeight / 2`
with integer division and `actualHeight` is odd. -/
theorem grid_aspect_counterexample :
    calculateOptimalGrid 10 5 1 = ⟨1, 1, 2, 5⟩ ∧
    ¬(calculateOptimalGrid 10 5 1 = ⟨0, 0, 0, 0⟩ ∨
      (calculateOptimalGrid 10 5 1).PicHeight = 2 * (calculateOptimalGrid 10 5 1).PicWidth) := by
  decide

/-- C1 (amended): `calculateOptimalGrid` returns either the degenerate zero
spec or a spec with `Cols*PicWidth ≤ canvasWidth`, `Rows*PicHeight ≤
canvasHeight`, and `PicWidth = PicHeight / 2` (integer division, so
`2*PicWidth ≤ PicHeight ≤ 2*PicWidth + 1` instead of exact 2:1). -/
theorem grid_returns_zero_or_bounded_spec (canvasWidth canvasHeight pictureCount : Nat) :
    calculateOptimalGrid canvasWidth canvasHeight pictureCount = ⟨0, 0, 0, 0⟩ ∨
    ((calculateOptimalGrid canvasWidth canvasHeight pictureCount).Cols *
        (calculateOptimalGrid canvasWidth canvasHeight pictureCount).PicWidth ≤ canvasWidth ∧
     (calculateOptimalGrid canvasWidth canvasHeight pictureCount).Rows *
        (calculateOptimalGrid canvasWidth canvasHeight pictureCount).PicHeight ≤ canvasHeight ∧
     (calculateOptimalGrid canvasWidth canvasHeight pictureCount).PicWidth =
        (calculateOptimalGrid canvasWidth canvasHeight pictureCount).PicHeight / 2) := by
  obtain ⟨-, h2, -⟩ := gridAcc_inv canvasWidth canvasHeight pictureCount pictureCount
  rcases h2 with ⟨-, hz⟩ | ⟨c0, -, -, hok0, hdims, -, -, -⟩
  · exact Or.inl hz
  · right
    unfold calculateOptimalGrid
    rw [hdims]
    exact candDims_bounds canvasWidth canvasHeight pictureCount c0 hok0

/-- C3 counterexample: on a 1×1 canvas with 3 pictures every candidate
`c ∈ {1, 2, 3}` is accepted with utilization 0 (the shared maximum), yet the
function returns the zero spec rather than the accepted candidate with the
smallest column count (or any accepted candidate), because the running best
only replaces the initial state on a strictly positive utilization. -/
theorem grid_tiebreak_counterexample :
    candOK 1 1 3 1 = true ∧ candOK 1 1 3 2 = true ∧ candOK 1 1 3 3 = true ∧
    candArea 1 1 3 1 = 0 ∧ candArea 1 1 3 2 = 0 ∧ candArea 1 1 3 3 = 0 ∧
    candDims 1 1 3 1 = ⟨1, 3, 0, 0⟩ ∧
    calculateOptimalGrid 1 1 3 ≠ candDims 1 1 3 1 ∧
    calculateOptimalGrid 1 1 3 ≠ candDims 1 1 3 2 ∧
    calculateOptimalGrid 1 1 3 ≠ candDims 1 1 3 3 := by
  decide

/-- C3 (amended): the chosen spec's utilization is at least that of every
accepted candidate, and whenever some accepted candidate has positive
utilization the function returns the accepted candidate with maximal
utilization, ties resolved to the smallest column count (first found). -/
theorem grid_utilization_optimal (canvasWidth canvasHeight pictureCount : Nat)
    (hw : 1 ≤ canvasWidth) (hh : 1 ≤ canvasHeight) (_hp : 1 ≤ pictureCount) :
    (∀ c, 1 ≤ c → c ≤ pictureCount →
       candOK canvasWidth canvasHeight pictureCount c = true →
       utilization canvasWidth canvasHeight
           (candDims canvasWidth canvasHeight pictureCount c) ≤
         utilization canvasWidth canvasHeight
           (calculateOptimalGrid canvasWidth canvasHeight pictureCount)) ∧
    (∀ c1, 1 ≤ c1 → c1 ≤ pictureCount →
       candOK canvasWidth canvasHeight pictureCount c1 = true →
       0 < candArea canvasWidth canvasHeight pictureCount c1 →
       ∃ c0, 1 ≤ c0 ∧ c0 ≤ pictureCount ∧
         candOK canvasWidth canvasHeight pictureCount c0 = true ∧
         calculateOptimalGrid canvasWidth canvasHeight pictureCount =
           candDims canvasWidth canvasHeight pictureCount c0 ∧
         ∀ c, 1 ≤ c → c ≤ pictureCount →
           candOK canvasWidth canvasHeight pictureCount c = true →
           candArea canvasWidth canvasHeight pictureCount c ≤
               candArea canvasWidth canvasHeight pictureCount c0 ∧
             (candArea canvasWidth canvasHeight pictureCount c =
                candArea canvasWidth canvasHeight pictureCount c0 → c0 ≤ c)) := by
  obtain ⟨hA, hB, hC⟩ := gridAcc_inv canvasWidth canvasHeight pictureCount pictureCount
  constructor
  · intro c hc1 hcn hok
    have harea := hC c hc1 hcn hok
    rw [hA] at harea
    exact utilization_le_of_area_le canvasWidth canvasHeight hw hh harea
  · intro c1 hc11 hc1n hok1 hpos1
    have hle := hC c1 hc11 hc1n hok1
    rcases hB with ⟨hzero, -⟩ | ⟨c0, hc01, hc0n, hok0, hdims, harea0, -, hmin⟩
    · omega
    · refine ⟨c0, hc01, hc0n, hok0, hdims, ?_⟩
      intro c hc1 hcn hok
      have hle' := hC c hc1 hcn hok
      constructor
      · omega
      · intro heq
        exact hmin c hc1 hcn hok (by omega)

/-- Witness for `grid_utilization_optimal` at the spec's worked example:
canvas 1024×2048 with 6 pictures. -/
theorem grid_utilization_optimal_witness :
    (1 : Nat) ≤ 1024 ∧ (1 : Nat) ≤ 2048 ∧ (1 : Nat) ≤ 6 ∧
    ((∀ c, 1 ≤ c → c ≤ 6 → candOK 1024 2048 6 c = true →
       utilization 1024 2048 (candDims 1024 2048 6 c) ≤
         utilization 1024 2048 (calculateOptimalGrid 1024 2048 6)) ∧
     (∀ c1, 1 ≤ c1 → c1 ≤ 6 → candOK 1024 2048 6 c1 = true →
       0 < candArea 1024 2048 6 c1 →
       ∃ c0, 1 ≤ c0 ∧ c0 ≤ 6 ∧ candOK 1024 2048 6 c0 = true ∧
         calculateOptimalGrid 1024 2048 6 = candDims 1024 2048 6 c0 ∧
         ∀ c, 1 ≤ c → c ≤ 6 → candOK 1024 2048 6 c = true →
           candArea 1024 2048 6 c ≤ candArea 1024 2048 6 c0 ∧
             (candArea 1024 2048 6 c = candArea 1024 2048 6 c0 → c0 ≤ c))) :=
  ⟨by decide, by decide, by decide,
    grid_utilization_optimal 1024 2048 6 (by decide) (by decide) (by decide)⟩

/-- On-disk cache artifact for a key: its byte content and the modification
time stamped when it was written. Time is in abstract non-negative units;
`time.Since(modTime)` is `now - modTime`. -/
structure FileInfo where
  content : List Nat
  modTime : Nat
deriving DecidableEq, Repr

/-- `FileCache.Get` (the cache file read path): a hit requires the artifact to
exist, to have non-zero size, and `time.Since(ModTime) <= TTL`; otherwise the
miss value `none` is returned. I/O failures of `os.Stat`/`os.Open`/`ReadAll`
are outside the model (the artifact either exists with its content or does
not). -/
def cacheGet (disk : Option FileInfo) (now ttl : Nat) : Option (List Nat) :=
  match disk with
  | none => none
  | some fi =>
    if fi.content.length = 0 then none
    else if ttl < now - fi.modTime then none
    else some fi.content

/-- `FileCache.GetOrCreate` in a single-request (sequential) run: fast-path
`Get`, lock acquisition (a no-op with no concurrent caller), re-check `Get`,
then the generator; a success is persisted by `writeFileAtomically`, modelled
as atomically replacing the artifact with content stamped `now`. Returns the
call result (`Except` of bytes × fromCache flag), the disk state after the
call, and the number of generator invocations made by this call. -/
def getOrCreate (disk : Option FileInfo) (now ttl : Nat)
    (generator : Except (List Char) (List Nat)) :
    Except (List Char) (List Nat × Bool) × Option FileInfo × Nat :=
  match cacheGet disk now ttl with
  | some data => (.ok (data, true), disk, 0)
  | none =>
    match cacheGet disk now ttl with
    | some data => (.ok (data, true), disk, 0)
    | none =>
      match generator with
      | .error e => (.error e, disk, 1)
      | .ok data => (.ok (data, false), some ⟨data, now⟩, 1)

/-- A miss persists as time moves forward: absent artifacts stay absent,
empty artifacts stay empty, and stale artifacts only get older. -/
theorem cacheGet_none_mono (disk : Option FileInfo) (now now' ttl : Nat)
    (h : cacheGet disk now ttl = none) (hle : now ≤ now') :
    cacheGet disk now' ttl = none := by
  unfold cacheGet at h ⊢
  match disk with
  | none => rfl
  | some fi =>
    by_cases h1 : fi.content.length = 0
    · simp [h1]
    · simp only [h1, if_false] at h ⊢
      by_cases h2 : ttl < now - fi.modTime
      · have : ttl < now' - fi.modTime := by omega
        simp [this]
      · simp [h2] at h

/-- C5: the cache read reports a hit exactly when the on-disk artifact exists,
has non-zero size, and its age `now - modTime` is at most the TTL; a stale
artifact is a miss that makes `GetOrCreate` run the generator and regenerate
the artifact. -/
theorem cache_read_hit_iff (now ttl : Nat) :
    cacheGet none now ttl = none ∧
    (∀ fi : FileInfo, cacheGet (some fi) now ttl =
       if fi.content ≠ [] ∧ now - fi.modTime ≤ ttl then some fi.content else none) ∧
    (∀ fi b, ttl < now - fi.modTime →
       getOrCreate (some fi) now ttl (.ok b) = (.ok (b, false), some ⟨b, now⟩, 1)) := by
  refine ⟨rfl, ?_, ?_⟩
  · intro fi
    unfold cacheGet
    by_cases h1 : fi.content.length = 0
    · have hc : fi.content = [] := List.length_eq_zero.mp h1
      simp [h1, hc]
    · have hne : fi.content ≠ [] := by
        intro h
        rw [h] at h1
        simp at h1
      by_cases h2 : ttl < now - fi.modTime
      · have h3 : ¬(now - fi.modTime ≤ ttl) := by omega
        simp [h1, h2, h3]
      · have h3 : now - fi.modTime ≤ ttl := by omega
        simp [h1, h2, hne, h3]
  · intro fi b hstale
    have hmiss : cacheGet (some fi) now ttl = none := by
      unfold cacheGet
      by_cases h1 : fi.content.length = 0
      · simp [h1]
      · simp [h1, hstale]
    unfold getOrCreate
    rw [hmiss]

/-- Witness for `cache_read_hit_iff`: an artifact written at time 0 read at
time 10 under TTL 5 is stale, so the generator runs and its bytes replace the
artifact. -/
theorem cache_read_hit_iff_witness :
    5 < 10 - 0 ∧
    getOrCreate (some ⟨[7], 0⟩) 10 5 (.ok [9]) = (.ok ([9], false), some ⟨[9], 10⟩, 1) :=
  ⟨by decide, (cache_read_hit_iff 10 5).2.2 ⟨[7], 0⟩ [9] (by decide)⟩

/-- C6: when the generator fails, `GetOrCreate` returns that error, leaves the
on-disk state unchanged (nothing is written), and any later call for the key
(at the same or later time) still misses and invokes its generator again. -/
theorem getOrCreate_error_uncached (disk : Option FileInfo) (now ttl : Nat)
    (e : List Char) (hmiss : cacheGet disk now ttl = none) :
    getOrCreate disk now ttl (.error e) = (.error e, disk, 1) ∧
    (∀ now' g, now ≤ now' → (getOrCreate disk now' ttl g).2.2 = 1) := by
  constructor
  · unfold getOrCreate
    rw [hmiss]
  · intro now' g hle
    have h' := cacheGet_none_mono disk now now' ttl hmiss hle
    unfold getOrCreate
    rw [h']
    rcases g with e' | d <;> rfl

/-- Witness for `getOrCreate_error_uncached`: empty disk, failing generator. -/
theorem getOrCreate_error_uncached_witness :
    cacheGet none 3 7 = none ∧
    getOrCreate none 3 7 (.error ['x']) = (.error ['x'], none, 1) ∧
    (getOrCreate none 4 7 (.ok [1])).2.2 = 1 :=
  ⟨rfl, (getOrCreate_error_uncached none 3 7 ['x'] rfl).1,
    (getOrCreate_error_uncached none 3 7 ['x'] rfl).2 4 (.ok [1]) (by decide)⟩

/-- C10: a generator success with empty bytes is persisted as a zero-length
artifact and returned marked as a miss, yet every later read of that artifact
— at any time, under any TTL — is again a miss (the read path rejects
zero-length files), so the generator is always re-invoked and an empty result
is never served as a hit. -/
theorem empty_artifact_never_hit (disk : Option FileInfo) (now ttl : Nat)
    (hmiss : cacheGet disk now ttl = none) :
    getOrCreate disk now ttl (.ok []) = (.ok (([] : List Nat), false), some ⟨[], now⟩, 1) ∧
    (∀ now' ttl', cacheGet (some ⟨[], now⟩) now' ttl' = none) ∧
    (∀ now' ttl' g, (getOrCreate (some ⟨[], now⟩) now' ttl' g).2.2 = 1) ∧
    (∀ now' ttl' b, getOrCreate (some ⟨[], now⟩) now' ttl' (.ok b) =
       (.ok (b, false), some ⟨b, now'⟩, 1)) := by
  refine ⟨?_, ?_, ?_, ?_⟩
  · unfold getOrCreate
    rw [hmiss]
  · intro now' ttl'
    rfl
  · intro now' ttl' g
    rcases g with e' | d <;> rfl
  · intro now' ttl' b
    rfl

/-- Witness for `empty_artifact_never_hit` at an empty initial disk. -/
theorem empty_artifact_never_hit_witness :
    cacheGet none 2 9 = none ∧
    getOrCreate none 2 9 (.ok []) = (.ok (([] : List Nat), false), some ⟨[], 2⟩, 1) ∧
    cacheGet (some ⟨[], 2⟩) 2 9 = none ∧
    getOrCreate (some ⟨[], 2⟩) 2 9 (.ok [5]) = (.ok ([5], false), some ⟨[5], 2⟩, 1) :=
  ⟨rfl, (empty_artifact_never_hit none 2 9 rfl).1,
    (empty_artifact_never_hit none 2 9 rfl).2.1 2 9,
    (empty_artifact_never_hit none 2 9 rfl).2.2.2 2 9 [5]⟩

/-- Number of jobs the dispatcher of `downloadImagesWithWorkerPool` hands out:
it walks `pictureUUIDs` and stops at index `grid.Cols*grid.Rows`; the
collector loop reads results while `i < len(pictureUUIDs) && i <
grid.Cols*grid.Rows`, i.e. exactly this many. -/
def dispatchedCount (pictureUUIDs : List String) (grid : GridDimensions) : Nat :=
  min pictureUUIDs.length (grid.Cols * grid.Rows)

/-- `downloadImagesWithWorkerPool`: workers fetch job `i`
(`openRemoteImageWithTimeout` on the URL built from `pictureUUIDs[i]`,
modelled by the abstract `fetch : index → decoded image or failure`), resize
successes with `imaging.Fill(img, grid.PicWidth, grid.PicHeight, …)`
(abstract `resize`), and send a result per job; the collector inserts each
successful result into the map at its original index. `order` is the order in
which the dispatched jobs' results reach the collector — any permutation of
`0, …, dispatchedCount-1`; only dispatched indices can produce results. The
returned value is the final `map[int]image.Image` as a lookup function.
`maxWorkers` only sizes the worker pool and does not affect the mapping. -/
def downloadImagesWithWorkerPool (pictureUUIDs : List String) (grid : GridDimensions)
    (maxWorkers : Nat) (fetch : Nat → Option Nat) (resize : Nat → Nat → Nat → Nat)
    (order : List Nat) : Nat → Option Nat :=
  let _ := maxWorkers
  let d := dispatchedCount pictureUUIDs grid
  order.foldl
    (fun m i =>
      if i < d then
        match fetch i with
        | some img => fun j => if j = i then some (resize img grid.PicWidth grid.PicHeight) else m j
        | none => m
      else m)
    (fun _ => none)

/-- Lookup characterization of the collector's insertion fold. -/
theorem poolFold_lookup (d : Nat) (fetch : Nat → Option Nat)
    (resize : Nat → Nat → Nat → Nat) (pw ph : Nat) :
    ∀ (l : List Nat) (m : Nat → Option Nat) (j : Nat),
      l.foldl
          (fun m i =>
            if i < d then
              match fetch i with
              | some img => fun j => if j = i then some (resize img pw ph) else m j
              | none => m
            else m)
          m j =
        if j ∈ l ∧ j < d ∧ (fetch j).isSome
        then Option.map (fun img => resize img pw ph) (fetch j)
        else m j := by
  intro l
  induction l with
  | nil =>
    intro m j
    simp
  | cons i t ih =>
    intro m j
    rw [List.foldl_cons, ih]
    by_cases hjt : j ∈ t ∧ j < d ∧ (fetch j).isSome = true
    · rw [if_pos hjt]
      have : j ∈ i :: t ∧ j < d ∧ (fetch j).isSome = true :=
        ⟨List.mem_cons_of_mem i hjt.1, hjt.2⟩
      rw [if_pos this]
    · rw [if_neg hjt]
      by_cases hji : j = i
      · subst hji
        by_cases hjd : j < d
        · rw [if_pos hjd]
          cases hf : fetch j with
          | none => simp
          | some img => simp [hjd]
        · rw [if_neg hjd]
          have hnot2 : ¬(j ∈ j :: t ∧ j < d ∧ (fetch j).isSome = true) := by
            intro h
            exact hjd h.2.1
          rw [if_neg hnot2]
      · have hnot : ¬(j ∈ i :: t ∧ j < d ∧ (fetch j).isSome = true) := by
          intro h
          rcases List.mem_cons.mp h.1 with h' | h'
          · exact hji h'
          · exact hjt ⟨h', h.2⟩
        rw [if_neg hnot]
        by_cases hid : i < d
        · rw [if_pos hid]
          cases hf : fetch i with
          | none => rfl
          | some img => simp [hji]
        · rw [if_neg hid]

/-- C7: however the dispatched jobs' results are ordered, the pool returns a
mapping that holds the resized image of every successful dispatched job at
its original index and nothing else; exactly
`min(len(pictureUUIDs), grid.Cols*grid.Rows)` jobs are dispatched, exactly
that many results are collected (the length of the completion order), and the
mapping has exactly as many entries as there are successful dispatched jobs. -/
theorem worker_pool_mapping (pictureUUIDs : List String) (grid : GridDimensions)
    (maxWorkers : Nat) (fetch : Nat → Option Nat) (resize : Nat → Nat → Nat → Nat)
    (order : List Nat)
    (hperm : order.Perm (List.range (dispatchedCount pictureUUIDs grid))) :
    dispatchedCount pictureUUIDs grid = min pictureUUIDs.length (grid.Cols * grid.Rows) ∧
    order.length = dispatchedCount pictureUUIDs grid ∧
    (∀ j, downloadImagesWithWorkerPool pictureUUIDs grid maxWorkers fetch resize order j =
       if j < dispatchedCount pictureUUIDs grid
       then Option.map (fun img => resize img grid.PicWidth grid.PicHeight) (fetch j)
       else none) ∧
    ((List.range (dispatchedCount pictureUUIDs grid)).filter
        (fun j => (downloadImagesWithWorkerPool pictureUUIDs grid maxWorkers
          fetch resize order j).isSome)).length =
      ((List.range (dispatchedCount pictureUUIDs grid)).filter
        (fun j => (fetch j).isSome)).length := by
  have hpt : ∀ j, downloadImagesWithWorkerPool pictureUUIDs grid maxWorkers fetch resize order j =
      if j < dispatchedCount pictureUUIDs grid
      then Option.map (fun img => resize img grid.PicWidth grid.PicHeight) (fetch j)
      else none := by
    intro j
    have hmem : (j ∈ order) = (j < dispatchedCount pictureUUIDs grid) := by
      rw [eq_iff_iff, hperm.mem_iff, List.mem_range]
    simp only [downloadImagesWithWorkerPool]
    rw [poolFold_lookup]
    by_cases hjd : j < dispatchedCount pictureUUIDs grid
    · rw [if_pos hjd]
      by_cases hs : (fetch j).isSome = true
      · rw [if_pos ⟨hmem ▸ hjd, hjd, hs⟩]
      · rw [if_neg (fun h => hs h.2.2)]
        cases hf : fetch j with
        | none => rfl
        | some img =>
          rw [hf] at hs
          simp at hs
    · rw [if_neg hjd]
      rw [if_neg (fun h => hjd h.2.1)]
  refine ⟨rfl, ?_, hpt, ?_⟩
  · have := hperm.length_eq
    simpa using this
  · apply congrArg List.length
    apply List.filter_congr
    intro j hj
    rw [List.mem_range] at hj
    rw [hpt j, if_pos hj]
    cases fetch j <;> rfl

/-- Witness for `worker_pool_mapping`: three identifiers, a 2×1 grid (so two
dispatched jobs), job 0 succeeding and job 1 failing, results arriving in
reverse order. -/
theorem worker_pool_mapping_witness :
    ([1, 0] : List Nat).Perm (List.range (dispatchedCount ["a", "b", "c"] ⟨2, 1, 10, 20⟩)) ∧
    downloadImagesWithWorkerPool ["a", "b", "c"] ⟨2, 1, 10, 20⟩ 10
        (fun i => if i = 0 then some 5 else none) (fun a b c => a + b + c) [1, 0] 0 = some 35 ∧
    downloadImagesWithWorkerPool ["a", "b", "c"] ⟨2, 1, 10, 20⟩ 10
        (fun i => if i = 0 then some 5 else none) (fun a b c => a + b + c) [1, 0] 1 = none ∧
    downloadImagesWithWorkerPool ["a", "b", "c"] ⟨2, 1, 10, 20⟩ 10
        (fun i => if i = 0 then some 5 else none) (fun a b c => a + b + c) [1, 0] 2 = none := by
  have h := worker_pool_mapping ["a", "b", "c"] ⟨2, 1, 10, 20⟩ 10
      (fun i => if i = 0 then some 5 else none) (fun a b c => a + b + c) [1, 0] (by decide)
  exact ⟨by decide, h.2.2.1 0, h.2.2.1 1, h.2.2.1 2⟩

/-- `p.isPrefixOf h`-style check on character lists, used to model Go's
`strings.Contains`. -/
def leadsWith : List Char → List Char → Bool
  | [], _ => true
  | _ :: _, [] => false
  | p :: ps, h :: hs => p = h && leadsWith ps hs

/-- Go `strings.Contains(hay, pat)`: some suffix of `hay` starts with `pat`. -/
def strContains : List Char → List Char → Bool
  | [], pat => leadsWith pat []
  | h :: t, pat => leadsWith pat (h :: t) || strContains t pat

/-- A pattern with head `p` cannot occur in a haystack that does not contain
the character `p`. -/
theorem strContains_eq_false_of_head_notMem (p : Char) (ps : List Char) :
    ∀ hay : List Char, p ∉ hay → strContains hay (p :: ps) = false := by
  intro hay
  induction hay with
  | nil => intro _; rfl
  | cons h t ih =>
    intro hmem
    have hph : ¬(p = h) := fun he => hmem (he ▸ List.mem_cons_self h t)
    have hpt : p ∉ t := fun he => hmem (List.mem_cons_of_mem h he)
    simp only [strContains, leadsWith, ih hpt, Bool.or_false]
    simp [hph]

/-- If a pattern occurs at the very start of `s ++ m`, it occurs at the start
of `s`, or all of `s` is an initial segment of the pattern. -/
theorem leadsWith_append (pat : List Char) :
    ∀ s m : List Char, leadsWith pat (s ++ m) = true →
      leadsWith pat s = true ∨ leadsWith s pat = true := by
  induction pat with
  | nil => intro s m _; exact Or.inl rfl
  | cons p pt ih =>
    intro s m h
    cases s with
    | nil => exact Or.inr rfl
    | cons x st =>
      simp only [List.cons_append, leadsWith, Bool.and_eq_true, decide_eq_true_eq] at h
      obtain ⟨hpx, hrest⟩ := h
      rcases ih st m hrest with h' | h'
      · exact Or.inl (by simp [leadsWith, hpx, h'])
      · exact Or.inr (by simp [leadsWith, hpx, h'])

/-- Occurrences of `pat` in `a ++ m` lie entirely inside `m` provided no
suffix of `a` starts the pattern and no suffix of `a` is an initial segment
of the pattern. -/
theorem strContains_append (pat : List Char) :
    ∀ a m : List Char,
      (∀ i, i < a.length → leadsWith pat (a.drop i) = false ∧
        leadsWith (a.drop i) pat = false) →
      strContains (a ++ m) pat = strContains m pat := by
  intro a
  induction a with
  | nil => intro m _; rfl
  | cons x t ih =>
    intro m h
    have h0 := h 0 (by simp)
    simp only [List.drop_zero] at h0
    have hshift : ∀ i, i < t.length → leadsWith pat (t.drop i) = false ∧
        leadsWith (t.drop i) pat = false := by
      intro i hi
      have := h (i + 1) (by simp; omega)
      simpa using this
    simp only [List.cons_append, strContains, List.append_eq]
    rw [ih m hshift]
    have hfalse : leadsWith pat (x :: (t ++ m)) = false := by
      by_contra hcon
      have htrue : leadsWith pat ((x :: t) ++ m) = true := by
        rw [List.cons_append]
        cases hEq : leadsWith pat (x :: (t ++ m))
        · exact absurd hEq hcon
        · rfl
      rcases leadsWith_append pat (x :: t) m htrue with h' | h'
      · rw [h0.1] at h'
        cases h'
      · rw [h0.2] at h'
        cases h'
    rw [hfalse]
    simp

/-- Decimal digit character, the output alphabet of `fmt`'s `%d`. -/
def digitChar (d : Nat) : Char := Char.ofNat (48 + d)

/-- Decimal printer for `%d`, with explicit fuel. -/
def natDigitsAux : Nat → Nat → List Char
  | 0, _ => []
  | fuel + 1, n =>
    if n < 10 then [digitChar n]
    else natDigitsAux fuel (n / 10) ++ [digitChar (n % 10)]

/-- Decimal rendering of a non-negative integer (`fmt.Errorf("… %d", n)`). -/
def natDigits (n : Nat) : List Char := natDigitsAux (n + 1) n

theorem natDigitsAux_digits (fuel : Nat) :
    ∀ n c, c ∈ natDigitsAux fuel n → ∃ d, d < 10 ∧ c = digitChar d := by
  induction fuel with
  | zero =>
    intro n c hc
    simp [natDigitsAux] at hc
  | succ fuel ih =>
    intro n c hc
    by_cases h : n < 10
    · simp [natDigitsAux, h] at hc
      exact ⟨n, h, hc⟩
    · simp only [natDigitsAux, h, if_false] at hc
      rcases List.mem_append.mp hc with h' | h'
      · exact ih _ _ h'
      · have hc' : c = digitChar (n % 10) := by simpa using h'
        exact ⟨n % 10, Nat.mod_lt n (by omega), hc'⟩

theorem digitChar_ne_n (d : Nat) (hd : d < 10) : digitChar d ≠ 'n' := by
  interval_cases d <;> decide

theorem n_notMem_natDigits (n : Nat) : 'n' ∉ natDigits n := by
  intro h
  obtain ⟨d, hd, hc⟩ := natDigitsAux_digits (n + 1) n 'n' h
  exact digitChar_ne_n d hd hc.symm

/-- The generation-time errors constructed by the generator closure in main
(part_001): `fmt.Errorf("api request: %w", err)`, `fmt.Errorf("api status %d",
code)`, `fmt.Errorf("no images found")`, `fmt.Errorf("encode jpeg: %w", err)`.
The wrapped payloads are arbitrary strings produced by the transport layer or
the JPEG encoder. -/
inductive GenError where
  | apiRequest (msg : List Char)
  | apiStatus (code : Nat)
  | noImagesFound
  | encodeJpeg (msg : List Char)
deriving DecidableEq, Repr

/-- `err.Error()` for each generation error. -/
def errString : GenError → List Char
  | .apiRequest msg => "api request: ".toList ++ msg
  | .apiStatus code => "api status ".toList ++ natDigits code
  | .noImagesFound => "no images found".toList
  | .encodeJpeg msg => "encode jpeg: ".toList ++ msg

/-- The route handler's error classification (part_001 lines 101-107):
`strings.Contains(err.Error(), "no images found")` selects status 404;
every other error yields status 500. -/
def handlerStatus (errMsg : List Char) : Nat :=
  if strContains errMsg "no images found".toList then 404 else 500

/-- C8 counterexample: an api transport failure whose wrapped message happens
to contain the phrase "no images found" is a generation error distinct from
the empty-picture-list error, yet the handler classifies it as 404, because
classification is by substring search on the error text, not error identity. -/
theorem handler_counterexample :
    GenError.apiRequest "no images found".toList ≠ GenError.noImagesFound ∧
    handlerStatus (errString (GenError.apiRequest "no images found".toList)) = 404 := by
  decide

/-- C8 (amended): the empty-picture-list failure maps to 404; an `api status`
failure maps to 500 for every status code; and `api request` / `encode jpeg`
failures map to 500 whenever their wrapped message does not itself contain
the substring "no images found". -/
theorem handler_error_mapping :
    handlerStatus (errString .noImagesFound) = 404 ∧
    (∀ code, handlerStatus (errString (.apiStatus code)) = 500) ∧
    (∀ msg, strContains msg "no images found".toList = false →
       handlerStatus (errString (.apiRequest msg)) = 500) ∧
    (∀ msg, strContains msg "no images found".toList = false →
       handlerStatus (errString (.encodeJpeg msg)) = 500) := by
  refine ⟨by decide, ?_, ?_, ?_⟩
  · intro code
    simp only [handlerStatus, errString]
    have h1 : strContains ("api status ".toList ++ natDigits code)
        "no images found".toList = false := by
      rw [strContains_append _ _ _ (by decide)]
      have hpat : "no images found".toList = 'n' :: "o images found".toList := by decide
      rw [hpat]
      exact strContains_eq_false_of_head_notMem _ _ _ (n_notMem_natDigits code)
    simp at h1
    simp [h1]
  · intro msg hm
    simp only [handlerStatus, errString]
    have h1 : strContains ("api request: ".toList ++ msg)
        "no images found".toList = false := by
      rw [strContains_append _ _ _ (by decide)]
      exact hm
    simp at h1
    simp [h1]
  · intro msg hm
    simp only [handlerStatus, errString]
    have h1 : strContains ("encode jpeg: ".toList ++ msg)
        "no images found".toList = false := by
      rw [strContains_append _ _ _ (by decide)]
      exact hm
    simp at h1
    simp [h1]

/-- Witness for `handler_error_mapping` at concrete errors. -/
theorem handler_error_mapping_witness :
    strContains "boom".toList "no images found".toList = false ∧
    handlerStatus (errString (.apiRequest "boom".toList)) = 500 ∧
    handlerStatus (errString (.apiStatus 503)) = 500 ∧
    handlerStatus (errString .noImagesFound) = 404 :=
  ⟨by decide, handler_error_mapping.2.2.1 "boom".toList (by decide),
    handler_error_mapping.2.1 503, handler_error_mapping.1⟩

/-- A composited canvas: its size and the ordered list of
`(tile index, x, y)` paste operations performed; grid cells without a
downloaded tile are skipped and keep the background fill. -/
structure Composite where
  width : Nat
  height : Nat
  pasted : List (Nat × Nat × Nat)
deriving DecidableEq, Repr

/-- The paste loop of the generator closure (part_001 lines 83-93): for
`i` in `0 ..< grid.Cols*grid.Rows`, paste tile `i` (when downloaded) at
`(i % Cols * PicWidth, i / Cols * PicHeight)`. -/
def pasteLoop (grid : GridDimensions) (images : Nat → Option Nat) :
    List (Nat × Nat × Nat) :=
  (List.range (grid.Cols * grid.Rows)).foldl
    (fun acc i =>
      match images i with
      | none => acc
      | some _ =>
        acc ++ [(i, i % grid.Cols * grid.PicWidth, i / grid.Cols * grid.PicHeight)])
    []

/-- The generator closure of the route handler (part_001 lines 52-99):
metadata call (modelled by its outcome `api`: a transport error, or a status
code together with the picture identifiers collected from the response),
status check, empty-list guard, grid computation on the hard-coded 1024×2048
canvas, worker-pool download, and compositing. The final JPEG encoding is
abstracted away: the theorems below concern whether this closure fails or
composites, which is decided before encoding. -/
def generateWall (api : Except (List Char) (Nat × List String))
    (fetch : Nat → Option Nat) (resize : Nat → Nat → Nat → Nat)
    (order : List Nat) : Except GenError Composite :=
  match api with
  | .error msg => .error (.apiRequest msg)
  | .ok (status, pictureUUIDs) =>
    if status ≠ 200 then .error (.apiStatus status)
    else if pictureUUIDs.length = 0 then .error .noImagesFound
    else
      let grid := calculateOptimalGrid 1024 2048 pictureUUIDs.length
      let images := downloadImagesWithWorkerPool pictureUUIDs grid 10 fetch resize order
      .ok ⟨1024, 2048, pasteLoop grid images⟩

/-- On the 1024×2048 canvas, every candidate has utilization 0 once the
picture count exceeds the canvas pixel capacity `1024*2048`: for
`c > 1024` the tile width collapses to 0 and for `c ≤ 1024` the row count
exceeds 2048 so the tile height collapses to 0. -/
theorem candArea_eq_zero_of_huge (c : Nat) (hc1 : 1 ≤ c) (hc : c ≤ 2097153) :
    candArea 1024 2048 2097153 c = 0 := by
  unfold candArea specArea candDims
  by_cases hbig : 1024 < c
  · have hw : candTempW 1024 c = 0 := Nat.div_eq_of_lt hbig
    by_cases hbr : candTempH 2048 2097153 c > 2 * candTempW 1024 c
    · rw [if_pos hbr]
      simp [hw]
    · rw [if_neg hbr]
      rw [hw] at hbr
      have hth : candTempH 2048 2097153 c = 0 := by omega
      simp [hth]
  · have hr : 2049 ≤ candRows 2097153 c := by
      unfold candRows
      rw [Nat.le_div_iff_mul_le (by omega : 0 < c)]
      omega
    have hth : candTempH 2048 2097153 c = 0 := by
      unfold candTempH
      exact Nat.div_eq_of_lt (by omega)
    have hbr : ¬(candTempH 2048 2097153 c > 2 * candTempW 1024 c) := by
      rw [hth]
      omega
    rw [if_neg hbr]
    simp [hth]

/-- With 2097153 pictures the 1024×2048 planner finds no candidate of
positive utilization and returns the degenerate zero spec. -/
theorem calculateOptimalGrid_eq_gridAcc (cw ch pc : Nat) :
    calculateOptimalGrid cw ch pc = (gridAcc cw ch pc pc).2 := rfl

theorem grid_degenerate_huge :
    calculateOptimalGrid 1024 2048 2097153 = ⟨0, 0, 0, 0⟩ := by
  rw [calculateOptimalGrid_eq_gridAcc]
  obtain ⟨-, h2, -⟩ := gridAcc_inv 1024 2048 2097153 2097153
  rcases h2 with ⟨-, hz⟩ | ⟨c0, hc01, hc0n, -, -, harea, hpos, -⟩
  · exact hz
  · rw [harea, candArea_eq_zero_of_huge c0 hc01 hc0n] at hpos
    omega

/-- A zero-area grid dispatches no jobs, so the pool returns the empty map. -/
theorem pool_zero_grid (uuids : List String) (pw ph mw : Nat)
    (fetch : Nat → Option Nat) (resize : Nat → Nat → Nat → Nat)
    (order : List Nat) :
    downloadImagesWithWorkerPool uuids ⟨0, 0, pw, ph⟩ mw fetch resize order =
      fun _ => none := by
  funext j
  simp only [downloadImagesWithWorkerPool]
  rw [poolFold_lookup]
  have hnot : ¬(j ∈ order ∧ j < dispatchedCount uuids ⟨0, 0, pw, ph⟩ ∧
      (fetch j).isSome = true) := by
    intro h
    have hlt := h.2.1
    simp [dispatchedCount] at hlt
  rw [if_neg hnot]

/-- C2 evidence: with the hard-coded 1024×2048 canvas and 2097153 picture
identifiers the planner returns the degenerate zero grid, yet the generator
closure — which has no guard on the grid — proceeds and returns success with
a background-only composite (no tile pasted) instead of failing, for every
download outcome and completion order. -/
theorem degenerate_grid_not_fatal :
    calculateOptimalGrid 1024 2048 2097153 = ⟨0, 0, 0, 0⟩ ∧
    ∀ (fetch : Nat → Option Nat) (resize : Nat → Nat → Nat → Nat)
      (order : List Nat),
      generateWall (.ok (200, List.replicate 2097153 "u")) fetch resize order =
        .ok ⟨1024, 2048, []⟩ := by
  refine ⟨grid_degenerate_huge, ?_⟩
  intro fetch resize order
  simp only [generateWall]
  rw [List.length_replicate]
  rw [if_neg (show ¬((200 : Nat) ≠ 200) by decide)]
  rw [if_neg (show ¬((2097153 : Nat) = 0) by decide)]
  rw [grid_degenerate_huge, pool_zero_grid]
  rfl

/-- Program counter of one request running `GetOrCreate` (part_002 lines
101-129). Each constructor names the next atomic operation the request
performs. -/
inductive CachePC where
  | fastGet
  | waitLock
  | recheck
  | generate
  | write
  | unlock
  | done
deriving DecidableEq, Repr

/-- Local state of one request: program counter and, once finished, its
return value (bytes, fromCache flag). -/
structure ReqState where
  pc : CachePC
  res : Option (List Nat × Bool)
deriving DecidableEq, Repr

/-- Shared state of two concurrent `GetOrCreate` requests for the same key:
the on-disk artifact for the key (`none` = absent; the race window is short
relative to the TTL, so a present non-empty artifact reads as fresh), the
holder of the per-key mutex from `getPerKeyMutex`, the total number of
generator invocations, and the two requests. -/
structure CacheSys where
  disk : Option (List Nat)
  owner : Option Bool
  genCount : Nat
  th0 : ReqState
  th1 : ReqState
deriving DecidableEq, Repr

def getTh (s : CacheSys) (t : Bool) : ReqState := if t then s.th1 else s.th0

def setTh (s : CacheSys) (t : Bool) (r : ReqState) : CacheSys :=
  if t then { s with th1 := r } else { s with th0 := r }

/-- One atomic step of request `t`, where `b` is the bytes the (deterministic,
successful) generator produces. Mirrors `GetOrCreate`: unlocked fast-path
`Get` (hit iff the artifact exists with non-zero size), `Lock` on the per-key
mutex (blocking while the other request holds it), the re-check `Get` under
the lock, `generator()`, `writeFileAtomically` (atomic replace), and
`Unlock` + return of the fresh bytes marked as a miss. -/
def cacheStep (b : List Nat) (s : CacheSys) (t : Bool) : CacheSys :=
  let r := getTh s t
  match r.pc with
  | .fastGet =>
    match s.disk with
    | some d =>
      if d = [] then setTh s t { r with pc := .waitLock }
      else setTh s t { pc := .done, res := some (d, true) }
    | none => setTh s t { r with pc := .waitLock }
  | .waitLock =>
    match s.owner with
    | none => setTh { s with owner := some t } t { r with pc := .recheck }
    | some _ => s
  | .recheck =>
    match s.disk with
    | some d =>
      if d = [] then setTh s t { r with pc := .generate }
      else setTh { s with owner := none } t { pc := .done, res := some (d, true) }
    | none => setTh s t { r with pc := .generate }
  | .generate => setTh { s with genCount := s.genCount + 1 } t { r with pc := .write }
  | .write => setTh { s with disk := some b } t { r with pc := .unlock }
  | .unlock => setTh { s with owner := none } t { pc := .done, res := some (b, false) }
  | .done => s

/-- Initial state: no artifact, lock free, no generator calls, both requests
at the fast path. -/
def cacheInit : CacheSys := ⟨none, none, 0, ⟨.fastGet, none⟩, ⟨.fastGet, none⟩⟩

/-- Run an interleaving: at each step the scheduler picks which request
performs its next atomic operation. -/
def cacheRun (b : List Nat) (sched : List Bool) : CacheSys :=
  sched.foldl (cacheStep b) cacheInit

/-- `r` holds the per-key mutex. -/
def holdsLock (r : ReqState) : Prop :=
  r.pc = .recheck ∨ r.pc = .generate ∨ r.pc = .write ∨ r.pc = .unlock

/-- `r` has written (or is about to release after writing) the new artifact. -/
def wroteNew (b : List Nat) (r : ReqState) : Prop :=
  r.pc = .unlock ∨ (r.pc = .done ∧ r.res = some (b, false))

/-- Number of generator invocations performed so far by request `r`. -/
def genContrib (b : List Nat) (r : ReqState) : Nat :=
  if r.pc = .write ∨ r.pc = .unlock ∨ (r.pc = .done ∧ r.res = some (b, false))
  then 1 else 0

/-- Inductive invariant of the two-request system. -/
def CacheInv (b : List Nat) (s : CacheSys) : Prop :=
  (s.disk = none ∨ s.disk = some b) ∧
  (holdsLock s.th0 ↔ s.owner = some false) ∧
  (holdsLock s.th1 ↔ s.owner = some true) ∧
  ((s.th0.pc = .generate ∨ s.th0.pc = .write) → s.disk = none) ∧
  ((s.th1.pc = .generate ∨ s.th1.pc = .write) → s.disk = none) ∧
  (s.disk = some b ↔ (wroteNew b s.th0 ∨ wroteNew b s.th1)) ∧
  (s.th0.pc = .done → s.th0.res = some (b, true) ∨ s.th0.res = some (b, false)) ∧
  (s.th1.pc = .done → s.th1.res = some (b, true) ∨ s.th1.res = some (b, false)) ∧
  (s.th0.res = some (b, true) → s.disk = some b) ∧
  (s.th1.res = some (b, true) → s.disk = some b) ∧
  (s.th0.pc ≠ .done → s.th0.res = none) ∧
  (s.th1.pc ≠ .done → s.th1.res = none) ∧
  s.genCount = genContrib b s.th0 + genContrib b s.th1 ∧
  genContrib b s.th0 + genContrib b s.th1 ≤ 1

theorem cacheInv_init (b : List Nat) : CacheInv b cacheInit := by
  refine ⟨Or.inl rfl, ?_, ?_, ?_, ?_, ?_, ?_, ?_, ?_, ?_, ?_, ?_, rfl, ?_⟩ <;>
    simp [cacheInit, holdsLock, wroteNew, genContrib]

set_option maxHeartbeats 1600000 in
theorem cacheInv_step (b : List Nat) (hb : b ≠ []) (s : CacheSys) (t : Bool)
    (h : CacheInv b s) : CacheInv b (cacheStep b s t) := by
  obtain ⟨h1, h2, h3, h4, h5, h6, h7, h8, h9, h10, h11, h12, h13, h14⟩ := h
  cases t
  case false =>
    simp only [cacheStep, getTh, if_false, Bool.false_eq_true]
    cases hpc : s.th0.pc <;> simp only [hpc]
    case fastGet =>
      cases hd : s.disk with
      | none =>
        refine ⟨?_, ?_, ?_, ?_, ?_, ?_, ?_, ?_, ?_, ?_, ?_, ?_, ?_, ?_⟩ <;>
          simp_all [setTh, holdsLock, wroteNew, genContrib]
      | some d =>
        dsimp only
        have hdb : d = b := by
          rcases h1 with h' | h'
          · rw [hd] at h'
            cases h'
          · rw [hd] at h'
            exact Option.some.inj h'
        subst hdb
        rw [if_neg hb]
        refine ⟨?_, ?_, ?_, ?_, ?_, ?_, ?_, ?_, ?_, ?_, ?_, ?_, ?_, ?_⟩ <;>
          simp_all [setTh, holdsLock, wroteNew, genContrib]
    case waitLock =>
      cases ho : s.owner with
      | none =>
        refine ⟨?_, ?_, ?_, ?_, ?_, ?_, ?_, ?_, ?_, ?_, ?_, ?_, ?_, ?_⟩ <;>
          simp_all [setTh, holdsLock, wroteNew, genContrib]
      | some u =>
        exact ⟨h1, h2, h3, h4, h5, h6, h7, h8, h9, h10, h11, h12, h13, h14⟩
    case recheck =>
      cases hd : s.disk with
      | none =>
        refine ⟨?_, ?_, ?_, ?_, ?_, ?_, ?_, ?_, ?_, ?_, ?_, ?_, ?_, ?_⟩ <;>
          simp_all [setTh, holdsLock, wroteNew, genContrib]
      | some d =>
        dsimp only
        have hdb : d = b := by
          rcases h1 with h' | h'
          · rw [hd] at h'
            cases h'
          · rw [hd] at h'
            exact Option.some.inj h'
        subst hdb
        rw [if_neg hb]
        refine ⟨?_, ?_, ?_, ?_, ?_, ?_, ?_, ?_, ?_, ?_, ?_, ?_, ?_, ?_⟩ <;>
          simp_all [setTh, holdsLock, wroteNew, genContrib]
    case generate =>
      refine ⟨?_, ?_, ?_, ?_, ?_, ?_, ?_, ?_, ?_, ?_, ?_, ?_, ?_, ?_⟩ <;>
        simp_all [setTh, holdsLock, wroteNew, genContrib]
    case write =>
      refine ⟨?_, ?_, ?_, ?_, ?_, ?_, ?_, ?_, ?_, ?_, ?_, ?_, ?_, ?_⟩ <;>
        simp_all [setTh, holdsLock, wroteNew, genContrib]
    case unlock =>
      refine ⟨?_, ?_, ?_, ?_, ?_, ?_, ?_, ?_, ?_, ?_, ?_, ?_, ?_, ?_⟩ <;>
        simp_all [setTh, holdsLock, wroteNew, genContrib]
    case done =>
      exact ⟨h1, h2, h3, h4, h5, h6, h7, h8, h9, h10, h11, h12, h13, h14⟩
  case true =>
    simp only [cacheStep, getTh, if_true]
    cases hpc : s.th1.pc <;> simp only [hpc]
    case fastGet =>
      cases hd : s.disk with
      | none =>
        refine ⟨?_, ?_, ?_, ?_, ?_, ?_, ?_, ?_, ?_, ?_, ?_, ?_, ?_, ?_⟩ <;>
          simp_all [setTh, holdsLock, wroteNew, genContrib]
      | some d =>
        dsimp only
        have hdb : d = b := by
          rcases h1 with h' | h'
          · rw [hd] at h'
            cases h'
          · rw [hd] at h'
            exact Option.some.inj h'
        subst hdb
        rw [if_neg hb]
        refine ⟨?_, ?_, ?_, ?_, ?_, ?_, ?_, ?_, ?_, ?_, ?_, ?_, ?_, ?_⟩ <;>
          simp_all [setTh, holdsLock, wroteNew, genContrib]
    case waitLock =>
      cases ho : s.owner with
      | none =>
        refine ⟨?_, ?_, ?_, ?_, ?_, ?_, ?_, ?_, ?_, ?_, ?_, ?_, ?_, ?_⟩ <;>
          simp_all [setTh, holdsLock, wroteNew, genContrib]
      | some u =>
        exact ⟨h1, h2, h3, h4, h5, h6, h7, h8, h9, h10, h11, h12, h13, h14⟩
    case recheck =>
      cases hd : s.disk with
      | none =>
        refine ⟨?_, ?_, ?_, ?_, ?_, ?_, ?_, ?_, ?_, ?_, ?_, ?_, ?_, ?_⟩ <;>
          simp_all [setTh, holdsLock, wroteNew, genContrib]
      | some d =>
        dsimp only
        have hdb : d = b := by
          rcases h1 with h' | h'
          · rw [hd] at h'
            cases h'
          · rw [hd] at h'
            exact Option.some.inj h'
        subst hdb
        rw [if_neg hb]
        refine ⟨?_, ?_, ?_, ?_, ?_, ?_, ?_, ?_, ?_, ?_, ?_, ?_, ?_, ?_⟩ <;>
          simp_all [setTh, holdsLock, wroteNew, genContrib]
    case generate =>
      refine ⟨?_, ?_, ?_, ?_, ?_, ?_, ?_, ?_, ?_, ?_, ?_, ?_, ?_, ?_⟩ <;>
        simp_all [setTh, holdsLock, wroteNew, genContrib]
    case write =>
      refine ⟨?_, ?_, ?_, ?_, ?_, ?_, ?_, ?_, ?_, ?_, ?_, ?_, ?_, ?_⟩ <;>
        simp_all [setTh, holdsLock, wroteNew, genContrib]
    case unlock =>
      refine ⟨?_, ?_, ?_, ?_, ?_, ?_, ?_, ?_, ?_, ?_, ?_, ?_, ?_, ?_⟩ <;>
        simp_all [setTh, holdsLock, wroteNew, genContrib]
    case done =>
      exact ⟨h1, h2, h3, h4, h5, h6, h7, h8, h9, h10, h11, h12, h13, h14⟩

theorem cacheRun_inv (b : List Nat) (hb : b ≠ []) (sched : List Bool) :
    CacheInv b (cacheRun b sched) := by
  unfold cacheRun
  induction sched using List.list_reverse_induction with
  | base => exact cacheInv_init b
  | ind l t ih =>
    rw [List.foldl_append]
    exact cacheInv_step b hb _ t ih

theorem genContrib_done_hit (b : List Nat) (r : ReqState) (hpc : r.pc = .done)
    (hres : r.res = some (b, true)) : genContrib b r = 0 := by
  unfold genContrib
  rw [if_neg]
  intro hcond
  rcases hcond with hc | hc | hc
  · rw [hpc] at hc
    exact absurd hc (by decide)
  · rw [hpc] at hc
    exact absurd hc (by decide)
  · rw [hres] at hc
    exact absurd hc.2 (by simp)

theorem genContrib_done_miss (b : List Nat) (r : ReqState) (hpc : r.pc = .done)
    (hres : r.res = some (b, false)) : genContrib b r = 1 := by
  unfold genContrib
  rw [if_pos (Or.inr (Or.inr ⟨hpc, hres⟩))]

/-- C4: starting from a key with no existing artifact, under every
interleaving of two concurrent `GetOrCreate` requests in which both requests
complete, the generator is invoked exactly once in total (the request that
loses the race re-checks the cache under the per-key lock, observes the
winner's freshly written artifact, and returns it as a hit — or already sees
it in its fast path), and both requests return the generator's bytes. -/
theorem cache_single_flight (b : List Nat) (hb : b ≠ []) (sched : List Bool)
    (h0 : (cacheRun b sched).th0.pc = CachePC.done)
    (h1 : (cacheRun b sched).th1.pc = CachePC.done) :
    (cacheRun b sched).genCount = 1 ∧
    ((cacheRun b sched).th0.res = some (b, true) ∨
      (cacheRun b sched).th0.res = some (b, false)) ∧
    ((cacheRun b sched).th1.res = some (b, true) ∨
      (cacheRun b sched).th1.res = some (b, false)) := by
  obtain ⟨c1, c2, c3, c4, c5, c6, c7, c8, c9, c10, c11, c12, c13, c14⟩ :=
    cacheRun_inv b hb sched
  have hr0 := c7 h0
  have hr1 := c8 h1
  refine ⟨?_, hr0, hr1⟩
  rcases hr0 with hm0 | hm0 <;> rcases hr1 with hm1 | hm1
  · exfalso
    rcases c6.mp (c9 hm0) with hw | hw <;> unfold wroteNew at hw
    · rcases hw with hw | hw
      · rw [h0] at hw
        exact absurd hw (by decide)
      · rw [hm0] at hw
        exact absurd hw.2 (by simp)
    · rcases hw with hw | hw
      · rw [h1] at hw
        exact absurd hw (by decide)
      · rw [hm1] at hw
        exact absurd hw.2 (by simp)
  · rw [c13, genContrib_done_hit b _ h0 hm0, genContrib_done_miss b _ h1 hm1]
  · rw [c13, genContrib_done_miss b _ h0 hm0, genContrib_done_hit b _ h1 hm1]
  · exfalso
    rw [genContrib_done_miss b _ h0 hm0, genContrib_done_miss b _ h1 hm1] at c14
    omega

/-- Witness for `cache_single_flight`: a contended schedule in which request 0
misses, acquires the lock, generates and writes, while request 1 misses its
fast path, blocks on the lock, and then hits at the re-check; the generator
runs once and both requests return the same bytes. -/
theorem cache_single_flight_witness :
    ([1] : List Nat) ≠ [] ∧
    (cacheRun [1] [false, true, false, true, false, false, false, false,
      true, true]).th0.pc = CachePC.done ∧
    (cacheRun [1] [false, true, false, true, false, false, false, false,
      true, true]).th1.pc = CachePC.done ∧
    ((cacheRun [1] [false, true, false, true, false, false, false, false,
        true, true]).genCount = 1 ∧
     ((cacheRun [1] [false, true, false, true, false, false, false, false,
         true, true]).th0.res = some ([1], true) ∨
       (cacheRun [1] [false, true, false, true, false, false, false, false,
         true, true]).th0.res = some ([1], false)) ∧
     ((cacheRun [1] [false, true, false, true, false, false, false, false,
         true, true]).th1.res = some ([1], true) ∨
       (cacheRun [1] [false, true, false, true, false, false, false, false,
         true, true]).th1.res = some ([1], false))) :=
  ⟨by decide, by decide, by decide,
    cache_single_flight [1] (by decide)
      [false, true, false, true, false, false, false, false, true, true]
      (by decide) (by decide)⟩
